import Mathlib

/-!
Verification development for the `pdf-invoice-reader` repository.

The Python sources are shallowly embedded as executable Lean definitions:
texts are `List Char`, regular-expression matchers are written out as the
deterministic matching procedures the concrete patterns perform, and the
services (`InvoiceProcessor`, `ConfidenceCalculator`, `TemplateSelector`,
the `/ingest` endpoint loop) become pure functions over explicit inputs.
-/

set_option maxRecDepth 4000

namespace InvoiceReader

/-! ## Character classes used by the regular expressions in the source

`\w` in CPython (restricted here to ASCII inputs) is `[A-Za-z0-9_]`,
`\s` is `[ \t\n\r\x0b\x0c]`, `\d` is `[0-9]`.
-/

/-- ASCII model of Python's `\w` character class. -/
def isWordChar (c : Char) : Bool := c.isAlphanum || c == '_'

/-- ASCII model of Python's `\s` character class. -/
def isPySpace (c : Char) : Bool :=
  c == ' ' || c == '\t' || c == '\n' || c == '\r' || c == '\x0b' || c == '\x0c'

/-- Python `str.strip()` on ASCII text: drop whitespace from both ends. -/
def trimPy (s : List Char) : List Char :=
  ((s.dropWhile isPySpace).reverse.dropWhile isPySpace).reverse

/-- `v` occurs verbatim as a contiguous substring of `s`. -/
def containsSub (s v : List Char) : Prop := ∃ a b, s = a ++ v ++ b

/-! ## Generic scanning machinery shared by the embedded regexes -/

/-- One leftmost-first, non-overlapping scan in the style of `re.finditer`:
`f` receives each suffix in turn and reports the match length at that
position together with the extracted payload; on a match the scan resumes
after the matched span, otherwise it advances one character.  The fuel is
instantiated with the text length by `findAllG`. -/
def findIterG (f : List Char → Option (Nat × β)) : Nat → List Char → List β
  | 0, _ => []
  | _, [] => []
  | fuel + 1, s@(_ :: rest) =>
    match f s with
    | some (l, v) =>
      if l = 0 then findIterG f fuel rest
      else v :: findIterG f fuel (List.drop l s)
    | none => findIterG f fuel rest

/-- All matches of `f` over `s`, leftmost-first and non-overlapping. -/
def findAllG (f : List Char → Option (Nat × β)) (s : List Char) : List β :=
  findIterG f s.length s

/-- The matched substrings of a plain length-reporting matcher. -/
def findMatches (m : List Char → Option Nat) (s : List Char) : List (List Char) :=
  findAllG (fun t => (m t).map (fun l => (l, t.take l))) s

/-- First match in the style of `re.search`: try the matcher at every
position from the left, returning the first success. -/
def searchFirst (f : List Char → Option β) : List Char → Option β
  | [] => f []
  | s@(_ :: rest) =>
    match f s with
    | some r => some r
    | none => searchFirst f rest

/-- Python `str.replace(pat, repl)`: replace every non-overlapping
occurrence of `pat`, scanning left to right.  (All patterns used by the
source are nonempty; on an empty pattern this walks the text unchanged.)
Fuel variant; `replaceAll` instantiates the fuel with the text length. -/
def replaceAllFuel (pat repl : List Char) : Nat → List Char → List Char
  | 0, s => s
  | _ + 1, [] => []
  | fuel + 1, s@(c :: rest) =>
    if pat.isPrefixOf s && !pat.isEmpty then
      repl ++ replaceAllFuel pat repl fuel (List.drop pat.length s)
    else
      c :: replaceAllFuel pat repl fuel rest

/-- Python `str.replace(pat, repl)` on `List Char`. -/
def replaceAll (s pat repl : List Char) : List Char :=
  replaceAllFuel pat repl s.length s

/-! ## `InvoiceProcessor._redact_pii`

Source: `src/app/services/invoice_processor.py`, lines 338-358.  Three
patterns are applied in dict insertion order (`email`, `phone`, `iban`);
for every match found **on the original text** an entity `{type, value}`
(no span) is recorded and every occurrence of the matched value is
replaced by `"***"` in the evolving redacted text.
-/

/-- Matcher for `[\w\.]+@[\w\.]+` at the head of `s`: a maximal nonempty
run of word-or-dot characters, an `@`, and another such run.  (Neither
run can absorb an `@`, so the greedy runs need no backtracking.) -/
def emailMatchAt (s : List Char) : Option Nat :=
  let isEmailChar : Char → Bool := fun c => isWordChar c || c == '.'
  let l1 := (s.takeWhile isEmailChar).length
  if l1 = 0 then none
  else
    match s.drop l1 with
    | '@' :: rest =>
      let l2 := (rest.takeWhile isEmailChar).length
      if l2 = 0 then none else some (l1 + 1 + l2)
    | _ => none

/-- Character class `[\d\s]` of the phone pattern's middle. -/
def isPhoneMidChar (c : Char) : Bool := c.isDigit || isPySpace c

/-- Largest index `m` with `7 ≤ m < run.length` whose character is a
digit: the backtracking of `[\d\s]{7,}` before the final `\d` of the
phone pattern. -/
def phoneMid (run : List Char) : Option Nat :=
  ((List.range run.length).filter
    (fun m => decide (7 ≤ m) && (run.getD m ' ').isDigit)).getLast?

/-- Matcher for `\d[\d\s]{7,}\d` at the head of `s`. -/
def phoneCore (s : List Char) : Option Nat :=
  match s with
  | [] => none
  | c :: rest =>
    if c.isDigit then
      match phoneMid (rest.takeWhile isPhoneMidChar) with
      | some m => some (m + 2)
      | none => none
    else none

/-- Matcher for `\+?\d[\d\s]{7,}\d` at the head of `s`. -/
def phoneMatchAt (s : List Char) : Option Nat :=
  match s with
  | '+' :: rest => (phoneCore rest).map (· + 1)
  | _ => phoneCore s

/-- Matcher for `[A-Z]{2}\d{2}[A-Z0-9]{1,30}` with `re.IGNORECASE` at the
head of `s`: two letters, two digits, then a greedy run of 1 to 30
alphanumeric characters. -/
def ibanMatchAt (s : List Char) : Option Nat :=
  match s with
  | a :: b :: c :: d :: rest =>
    if a.isAlpha && b.isAlpha && c.isDigit && d.isDigit then
      let run := (rest.takeWhile Char.isAlphanum).length
      if run = 0 then none else some (4 + min run 30)
    else none
  | _ => none

/-- The dict entry `{"type": kind, "value": value}` appended by
`_redact_pii`; the source records no span. -/
structure PIIEntity where
  type : String
  value : List Char
  deriving DecidableEq, Repr

/-- The mask token `"***"`. -/
def maskChars : List Char := ['*', '*', '*']

/-- `InvoiceProcessor._redact_pii` (invoice_processor.py 338-358): find
all matches of the `email`, `phone`, `iban` patterns **on the original
text** in that order, record one entity per match, and fold a literal
whole-text replacement of each matched value by `"***"` over the evolving
redacted text. -/
def redact_pii (text : List Char) : List Char × List PIIEntity :=
  let ems := findMatches emailMatchAt text
  let phs := findMatches phoneMatchAt text
  let ibs := findMatches ibanMatchAt text
  let entities :=
    ems.map (fun v => PIIEntity.mk "email" v)
      ++ phs.map (fun v => PIIEntity.mk "phone" v)
      ++ ibs.map (fun v => PIIEntity.mk "iban" v)
  (entities.foldl (fun acc e => replaceAll acc e.value maskChars) text, entities)

/-! ## `InvoiceProcessor._extract_fields`

Source: `src/app/services/invoice_processor.py`, lines 247-336.  Each of
the seven fields is produced by `make_field(value, confidence, evidence)`
where the evidence dict's `coords` entry is always `None` (so only its
`text` entry is modelled).
-/

/-- Lowercase every character (ASCII). -/
def lowerChars (s : List Char) : List Char := s.map Char.toLower

/-- Values held by an extracted field. -/
inductive FieldValue
  | vnone
  | vstr (s : List Char)
  | vtaxes (ts : List (List Char × List Char))
  deriving DecidableEq, Repr

/-- One tax entry `{"type": rate%, "amount": amount}`. -/
structure TaxItem where
  type : List Char
  amount : List Char
  deriving DecidableEq, Repr

/-- The dict built by the `make_field` helper:
`{"value": ..., "confidence": ..., "evidence": {"text": ..., "coords": None}}`. -/
structure ExtractedField where
  value : FieldValue
  confidence : ℚ
  evidence : List Char
  deriving DecidableEq, Repr

/-- Character class `[:\s#-]` of the invoice-number pattern. -/
def isInvSep (c : Char) : Bool := c == ':' || isPySpace c || c == '#' || c == '-'

/-- Character class `[A-Za-z0-9/.-]` of the invoice-number group. -/
def isInvGroupChar (c : Char) : Bool := c.isAlphanum || c == '/' || c == '.' || c == '-'

/-- Matcher for `(?:invoice|factura)[:\s#-]*([A-Za-z0-9/.-]+)` with
`re.IGNORECASE` at the head of `s`, returning `(group0, group1)`.  The
greedy separator run backtracks until the group can take at least one
character (e.g. a trailing `-` of the separator run becomes the group). -/
def invoiceMatchAt (s : List Char) : Option (List Char × List Char) :=
  if lowerChars (s.take 7) = "invoice".toList || lowerChars (s.take 7) = "factura".toList then
    let after := s.drop 7
    let sepLen := (after.takeWhile isInvSep).length
    match ((List.range (sepLen + 1)).reverse).find?
        (fun p => !((after.drop p).takeWhile isInvGroupChar).isEmpty) with
    | some p =>
      let g := (after.drop p).takeWhile isInvGroupChar
      some (s.take (7 + p + g.length), g)
    | none => none
  else none

/-- The date pattern's separator class: a slash or a hyphen. -/
def isDateSep (c : Char) : Bool := c == '/' || c == '-'

/-- `\d{1,2}` followed by a slash-or-hyphen separator at the head of `t`: number of day/month
digits (greedy, two before one). -/
def dayMonthLen (t : List Char) : Option Nat :=
  match t with
  | a :: b :: c :: _ =>
    if a.isDigit && b.isDigit && isDateSep c then some 2
    else if a.isDigit && isDateSep b then some 1 else none
  | [a, b] => if a.isDigit && isDateSep b then some 1 else none
  | _ => none

/-- Matcher for the date pattern (1-2 digits, separator, 1-2 digits,
separator, 2-4 digits, each separator a slash or hyphen) at the head of `s`,
returning the matched substring. -/
def dateMatchAt (s : List Char) : Option (List Char) :=
  match dayMonthLen s with
  | some dl =>
    match dayMonthLen (s.drop (dl + 1)) with
    | some ml =>
      let s3 := s.drop (dl + 1 + ml + 1)
      let yl := min ((s3.takeWhile Char.isDigit).length) 4
      if 2 ≤ yl then some (s.take (dl + 1 + ml + 1 + yl)) else none
    | none => none
  | none => none

/-- Numeric value of a digit string. -/
def natOfDigits (ds : List Char) : Nat :=
  ds.foldl (fun acc c => acc * 10 + (c.toNat - '0'.toNat)) 0

/-- CPython's `%y` century rule: `00..68` map to `2000..2068`,
`69..99` to `1969..1999`. -/
def yearFromY2 (yy : Nat) : Nat := if yy ≤ 68 then 2000 + yy else 1900 + yy

/-- Gregorian leap year. -/
def isLeapYear (y : Nat) : Bool := y % 4 == 0 && (y % 100 != 0 || y % 400 == 0)

/-- Days in a month, as validated by `datetime`. -/
def daysInMonth (y m : Nat) : Nat :=
  if m = 2 then (if isLeapYear y then 29 else 28)
  else if m = 4 || m = 6 || m = 9 || m = 11 then 30 else 31

/-- `datetime.strptime(s, "%d{sep}%m{sep}%Y")` (or `%y` when
`fourDigitYear` is false): day and month are 1-2 digits, the year exactly
4 (resp. 2) digits, the whole string must be consumed, and the resulting
calendar date must exist.  Returns `(year, month, day)`. -/
def strptimeDMY (sep : Char) (fourDigitYear : Bool) (s : List Char) : Option (Nat × Nat × Nat) :=
  let dpart := s.takeWhile Char.isDigit
  if dpart.length = 0 || 2 < dpart.length then none else
  match s.drop dpart.length with
  | c1 :: rest1 =>
    if c1 != sep then none else
    let mpart := rest1.takeWhile Char.isDigit
    if mpart.length = 0 || 2 < mpart.length then none else
    match rest1.drop mpart.length with
    | c2 :: rest2 =>
      if c2 != sep then none else
      let ypart := rest2.takeWhile Char.isDigit
      if !(rest2.drop ypart.length).isEmpty then none else
      if (fourDigitYear && ypart.length != 4) || (!fourDigitYear && ypart.length != 2) then none else
      let d := natOfDigits dpart
      let m := natOfDigits mpart
      let y := if fourDigitYear then natOfDigits ypart else yearFromY2 (natOfDigits ypart)
      if 1 ≤ d && 1 ≤ m && m ≤ 12 && 1 ≤ y && d ≤ daysInMonth y m then some (y, m, d)
      else none
    | [] => none
  | [] => none

/-- The source's fixed format list, tried in order with the first success
winning: `["%d/%m/%Y", "%d-%m-%Y", "%d/%m/%y", "%d-%m-%y"]`. -/
def tryDateFormats (raw : List Char) : Option (Nat × Nat × Nat) :=
  match strptimeDMY '/' true raw with
  | some r => some r
  | none =>
    match strptimeDMY '-' true raw with
    | some r => some r
    | none =>
      match strptimeDMY '/' false raw with
      | some r => some r
      | none => strptimeDMY '-' false raw

/-- Two-digit zero padding of `%m` / `%d`. -/
def pad2 (n : Nat) : List Char := if n < 10 then '0' :: (toString n).toList else (toString n).toList

/-- `dt.strftime("%Y-%m-%d")`. -/
def fmtYmd (ymd : Nat × Nat × Nat) : List Char :=
  (toString ymd.1).toList ++ '-' :: (pad2 ymd.2.1 ++ '-' :: pad2 ymd.2.2)

/-- Python `str.splitlines()` restricted to the ASCII terminators
`\r\n`, `\r`, `\n` (no trailing empty line). -/
def splitLinesGo (cur : List Char) : List Char → List (List Char)
  | [] => if cur.isEmpty then [] else [cur.reverse]
  | '\r' :: '\n' :: rest => cur.reverse :: splitLinesGo [] rest
  | '\r' :: rest => cur.reverse :: splitLinesGo [] rest
  | '\n' :: rest => cur.reverse :: splitLinesGo [] rest
  | c :: rest => splitLinesGo (c :: cur) rest

/-- Python `str.splitlines()`. -/
def splitLinesPy (s : List Char) : List (List Char) := splitLinesGo [] s

/-- `re.search(\b…\b)` for a fixed lowercase word `w` with `\b` word
boundaries, case-insensitively, anywhere in `s`. -/
def wordAtBoundary (w : List Char) (s : List Char) : Bool :=
  let ls := lowerChars s
  (List.range (ls.length + 1)).any (fun i =>
    w.isPrefixOf (ls.drop i) &&
    (decide (i = 0) || !isWordChar (ls.getD (i - 1) ' ')) &&
    (decide (ls.length ≤ i + w.length) || !isWordChar (ls.getD (i + w.length) ' ')))

/-- `re.search(r"\b(NIF|CIF)\b", line, re.IGNORECASE)` succeeds. -/
def hasNifCif (line : List Char) : Bool :=
  wordAtBoundary "nif".toList line || wordAtBoundary "cif".toList line

/-- `re.search(r"\bcliente\b", line, re.IGNORECASE)` succeeds. -/
def hasCliente (line : List Char) : Bool := wordAtBoundary "cliente".toList line

/-- Matcher for `total[:\s]*([0-9]+[,.][0-9]{2})` with `re.IGNORECASE` at
the head of `s`, returning `(group0, group1)`.  The separator run and the
digit group share no characters, so the greedy run needs no backtracking;
`[0-9]{2}` takes exactly two digits. -/
def totalMatchAt (s : List Char) : Option (List Char × List Char) :=
  if lowerChars (s.take 5) = "total".toList then
    let after := s.drop 5
    let sepLen := (after.takeWhile (fun c => c == ':' || isPySpace c)).length
    let r := after.drop sepLen
    let dD := (r.takeWhile Char.isDigit).length
    if dD = 0 then none else
      match r.drop dD with
      | sep :: a :: b :: _ =>
        if (sep == ',' || sep == '.') && a.isDigit && b.isDigit then
          some (s.take (5 + sepLen + dD + 3), r.take dD ++ [sep, a, b])
        else none
      | _ => none
  else none

/-- The decimal-comma normalisation `raw.replace(",", ".")`. -/
def commaToDot (s : List Char) : List Char := s.map (fun c => if c == ',' then '.' else c)

/-- The tail of the tax pattern after the `%`:
`\s*(\d+[,.]\d{2})`, returning `(consumed length, amount group)`. -/
def taxTail (rest : List Char) : Option (Nat × List Char) :=
  let w := (rest.takeWhile isPySpace).length
  let r2 := rest.drop w
  let dD := (r2.takeWhile Char.isDigit).length
  if dD = 0 then none else
    match r2.drop dD with
    | sep :: a :: b :: _ =>
      if (sep == ',' || sep == '.') && a.isDigit && b.isDigit then
        some (w + dD + 3, r2.take dD ++ [sep, a, b])
      else none
    | _ => none

/-- Matcher for `(\d{1,2})%\s*(\d+[,.]\d{2})` at the head of `s`,
returning the match length with the `(rate, amount)` groups. -/
def taxMatchAt (s : List Char) : Option (Nat × (List Char × List Char)) :=
  match s with
  | c1 :: c2 :: c3 :: rest =>
    if c1.isDigit && c2.isDigit && c3 == '%' then
      (taxTail rest).map (fun lv => (3 + lv.1, ([c1, c2], lv.2)))
    else if c1.isDigit && c2 == '%' then
      (taxTail (c3 :: rest)).map (fun lv => (2 + lv.1, ([c1], lv.2)))
    else none
  | _ => none

/-- All `(rate, amount)` pairs found by
`re.finditer(r"(\d{1,2})%\s*(\d+[,.]\d{2})", text)` in document order,
assembled into `{"type": f"{rate}%", "amount": amount.replace(",", ".")}`
entries. -/
def extractTaxes (text : List Char) : List TaxItem :=
  (findAllG taxMatchAt text).map (fun ra => ⟨ra.1 ++ ['%'], commaToDot ra.2⟩)

/-- One apostrophe character, for Python `str()` output. -/
def sq : Char := '\''

/-- Python `str()` of one tax dict. -/
def reprTaxItem (t : TaxItem) : List Char :=
  '\x7b' :: sq :: ("type".toList ++ sq :: ':' :: ' ' :: sq :: (t.type ++ sq :: ',' :: ' ' :: sq ::
    ("amount".toList ++ sq :: ':' :: ' ' :: sq :: (t.amount ++ [sq, '\x7d']))))

/-- Python `str(taxes)` for a list of tax dicts. -/
def reprTaxes (ts : List TaxItem) : List Char :=
  '[' :: (List.intercalate [',', ' '] (ts.map reprTaxItem) ++ [']'])

/-- The seven-field mapping built by `_extract_fields`, keys in dict
insertion order. -/
structure InferredFields where
  invoice_number : ExtractedField
  issue_date : ExtractedField
  supplier : ExtractedField
  customer : ExtractedField
  total : ExtractedField
  taxes : ExtractedField
  products : ExtractedField
  deriving DecidableEq, Repr

/-- `InvoiceProcessor._extract_fields` (invoice_processor.py 247-336). -/
def extract_fields (text : List Char) : InferredFields :=
  let inv := searchFirst invoiceMatchAt text
  let dateRaw := searchFirst dateMatchAt text
  let lines := splitLinesPy text
  let supplier := lines.find? hasNifCif
  let customer := lines.find? hasCliente
  let tot := searchFirst totalMatchAt text
  let taxes := extractTaxes text
  { invoice_number :=
      match inv with
      | some g => ⟨FieldValue.vstr (trimPy g.2), 9 / 10, g.1⟩
      | none => ⟨FieldValue.vnone, 0, []⟩
    issue_date :=
      match dateRaw with
      | some raw =>
        match tryDateFormats raw with
        | some ymd => ⟨FieldValue.vstr (fmtYmd ymd), 9 / 10, raw⟩
        | none => ⟨FieldValue.vnone, 0, raw⟩
      | none => ⟨FieldValue.vnone, 0, []⟩
    supplier :=
      match supplier with
      | some l => ⟨FieldValue.vstr (trimPy l), 6 / 10, trimPy l⟩
      | none => ⟨FieldValue.vnone, 0, []⟩
    customer :=
      match customer with
      | some l => ⟨FieldValue.vstr (trimPy l), 6 / 10, trimPy l⟩
      | none => ⟨FieldValue.vnone, 0, []⟩
    total :=
      match tot with
      | some g => ⟨FieldValue.vstr (commaToDot g.2), 95 / 100, g.1⟩
      | none => ⟨FieldValue.vnone, 0, []⟩
    taxes :=
      ⟨if taxes.isEmpty then FieldValue.vnone
        else FieldValue.vtaxes (taxes.map (fun t => (t.type, t.amount))),
       if taxes.isEmpty then 0 else 7 / 10,
       reprTaxes taxes⟩
    products := ⟨FieldValue.vnone, 0, []⟩ }

/-! ## `ConfidenceCalculator.calculate_confidence`

Source: `src/backend/modules/processing_core/confidence.py`, lines 7-23.
The field mapping is modelled as an association list of Python values;
the source counts values for which `if value` holds, i.e. **truthy**
values.
-/

/-- A Python value as far as truthiness is concerned. -/
inductive PyVal
  | pynone
  | pybool (b : Bool)
  | pyint (n : Int)
  | pystr (s : List Char)
  | pylist (elems : List PyVal)

/-- Python truthiness: `bool(v)`. -/
def truthy : PyVal → Bool
  | .pynone => false
  | .pybool b => b
  | .pyint n => n != 0
  | .pystr s => !s.isEmpty
  | .pylist l => !l.isEmpty

/-- `v is not None`. -/
def isNotNone : PyVal → Bool
  | .pynone => false
  | _ => true

/-- `ConfidenceCalculator.calculate_confidence` (confidence.py 7-23):
`0.0` for an empty mapping, otherwise the number of **truthy** values
divided by the total number of fields. -/
def calculate_confidence (extracted : List (String × PyVal)) : ℚ :=
  if extracted.length = 0 then 0
  else ((extracted.filter (fun p => truthy p.2)).length : ℚ) / (extracted.length : ℚ)

/-- Modelled from the spec (§4.6): the claimed formula counts fields
whose value is **non-null** rather than truthy.  Kept only to compare
with the source's `calculate_confidence`. -/
def nonNullRatioSpec (extracted : List (String × PyVal)) : ℚ :=
  if extracted.length = 0 then 0
  else ((extracted.filter (fun p => isNotNone p.2)).length : ℚ) / (extracted.length : ℚ)

/-! ## `TemplateSelector.select_template`

Source: `src/backend/modules/processing_core/template_selector.py`,
lines 12-38.  The filesystem is abstracted as: `vendorListing` is
`os.listdir(vendor_dir)` in the order the OS returns it (`none` when the
vendor directory does not exist), and `load f` is
`yaml.safe_load(open(f))` for a listing entry `f`, with
`load "default/default.yml"` the global default template.
-/

/-- `fname.lower().endswith((".yml", ".yaml"))`. -/
def isYamlName (f : String) : Bool :=
  ".yml".toList.isSuffixOf (lowerChars f.toList)
    || ".yaml".toList.isSuffixOf (lowerChars f.toList)

/-- `os.path.splitext(fname)[0]`: cut at the last dot that has some
non-dot character before it (so a leading-dot name keeps its dots). -/
def splitextRoot (f : String) : String :=
  let cs := f.toList
  match ((List.range cs.length).filter
      (fun i => cs.getD i ' ' == '.' && (cs.take i).any (fun c => c != '.'))).getLast? with
  | some i => ⟨cs.take i⟩
  | none => f

/-- The loop body's test: a listing entry is a YAML file whose lowercased
base name starts the lowercased PDF file name. -/
def templateFileMatches (file_name fname : String) : Bool :=
  isYamlName fname
    && (lowerChars (splitextRoot fname).toList).isPrefixOf (lowerChars file_name.toList)

/-- The `for fname in os.listdir(vendor_dir)` loop: first matching entry
wins, in listing order. -/
def selectLoop (load : String → α) (file_name : String) : List String → Option α
  | [] => none
  | f :: fs =>
    if templateFileMatches file_name f then some (load f)
    else selectLoop load file_name fs

/-- `TemplateSelector.select_template` (template_selector.py 12-38):
scan the vendor listing in OS order for the first matching YAML file,
falling back to the single default template; the caller receives only
the loaded template. -/
def select_template (load : String → α) (vendorListing : Option (List String))
    (file_name : String) : α :=
  match vendorListing with
  | some listing =>
    match selectLoop load file_name listing with
    | some t => t
    | none => load "default/default.yml"
  | none => load "default/default.yml"

/-- Ascending insertion of a string into a sorted list. -/
def insertAsc (x : String) : List String → List String
  | [] => [x]
  | y :: ys => if x ≤ y then x :: y :: ys else y :: insertAsc x ys

/-- Stable ascending insertion sort over strings. -/
def sortAsc (l : List String) : List String := l.foldr insertAsc []

/-- Modelled from the spec (§4.4): `select(vendorId, filename)` returns
`(Template, templateId, warnings)`, iterates the vendor collection in a
stable ascending order by identifier, and emits a non-fatal warning when
the lookup falls through to the default template.  Kept only to compare
with the source's `select_template`. -/
def selectTemplateSpec (load : String → α) (vendorListing : Option (List String))
    (file_name : String) : α × String × List String :=
  let ordered := sortAsc ((vendorListing.getD []).filter isYamlName)
  match ordered.find? (fun f => templateFileMatches file_name f) with
  | some f => (load f, splitextRoot f, [])
  | none =>
    (load "default/default.yml", "default",
      ["vendor-specific lookup fell through to default"])

/-! ## The `/ingest` endpoint loop

Source: `src/app/main.py`, lines 55-133.  The FastAPI layer is abstracted
away: an upload is its filename, declared content type and raw bytes, and
`proc` stands for `processor.process_invoice` on the upload's content
(`Except.error` when it raises).  An `HTTPException` becomes the
`badRequest` constructor.
-/

/-- An uploaded file as the endpoint sees it. -/
structure UploadFile where
  filename : String
  contentType : String
  content : String
  deriving DecidableEq, Repr

/-- One element of the response array: either a processing result or the
`{"file_name": ..., "error": ...}` record built in the `except` branch. -/
inductive IngestItem (α : Type)
  | ok (result : α)
  | failed (file_name error : String)
  deriving DecidableEq, Repr

/-- The endpoint's outcome: a JSON array of per-file items, or an
`HTTPException` with status 400. -/
inductive IngestOut (α : Type)
  | badRequest (detail : String)
  | results (items : List (IngestItem α))
  deriving DecidableEq, Repr

/-- The content-type whitelist of main.py line 115. -/
def allowedContentType (ct : String) : Bool :=
  ct == "application/pdf" || ct == "application/octet-stream"

/-- The `for upload in files` loop (main.py 112-131): a disallowed
content type raises (aborting the whole batch), a processing failure
contributes a `{file_name, error}` record, a success contributes the
processing result. -/
def ingestLoop (proc : UploadFile → Except String α) :
    List UploadFile → Except String (List (IngestItem α))
  | [] => Except.ok []
  | u :: us =>
    if allowedContentType u.contentType then
      let item := match proc u with
        | Except.ok r => IngestItem.ok r
        | Except.error e => IngestItem.failed u.filename e
      match ingestLoop proc us with
      | Except.ok rest => Except.ok (item :: rest)
      | Except.error e => Except.error e
    else
      Except.error ("Unsupported content type " ++ u.contentType ++ " for file " ++ u.filename)

/-- The `ingest` endpoint (main.py 55-133). -/
def ingest (proc : UploadFile → Except String α) (files : List UploadFile) : IngestOut α :=
  if files.isEmpty then IngestOut.badRequest "No files were provided for ingestion"
  else
    match ingestLoop proc files with
    | Except.ok items => IngestOut.results items
    | Except.error e => IngestOut.badRequest e

/-! ## `InvoiceProcessor.process_invoice`

Source: `src/app/services/invoice_processor.py`, lines 54-177.  The
PyMuPDF document is abstracted as the list of its pages, where a page
carries what the library calls would return for it: `rawText` is
`page.get_text("text")`, `ocrText` is what `pytesseract.image_to_string`
would return for the rendered page, `imgW`/`imgH` are the rendered
pixmap's dimensions and `nativeBlocks` is `page.get_text("blocks")`.
`ocrAvail` states whether `pytesseract` imported; the sha256 hash and the
PDF metadata are passed through as opaque values.
-/

/-- A native layout block `(x0, y0, x1, y1, text, ...)`. -/
structure RawBlock where
  x0 : ℚ
  y0 : ℚ
  x1 : ℚ
  y1 : ℚ
  text : List Char
  deriving DecidableEq, Repr

/-- One PDF page, abstracted as the values the library calls return. -/
structure PageInput where
  rawText : List Char
  ocrText : List Char
  imgW : Nat
  imgH : Nat
  nativeBlocks : List RawBlock
  deriving DecidableEq, Repr

/-- `ProcessingParams` (invoice_processor.py 37-46). -/
structure ProcessingParams where
  language_hint : Option String := none
  return_layout : Bool := false
  return_tables : Bool := false
  ocr_force : Bool := false
  ocr_engine : String := "auto"
  redact_pii : Bool := false
  deriving DecidableEq, Repr

/-- An output block dict.  `confKey = some none` models the OCR block's
`"confidence": None` entry; `confKey = none` models a native block,
whose dict has no confidence key. -/
structure BlockOut where
  text : List Char
  coords : List ℚ
  confKey : Option (Option ℚ)
  deriving DecidableEq, Repr

/-- One page dict `{"number": ..., "text": ..., "blocks": ...}`. -/
structure PageOut where
  number : Nat
  text : List Char
  blocks : List BlockOut
  deriving DecidableEq, Repr

/-- One entry of the `images` array. -/
structure ImageRec where
  page : Nat
  index : Nat
  width : Nat
  height : Nat
  deriving DecidableEq, Repr

/-- The `diagnostics` dict. -/
structure Diagnostics where
  pages_count : Nat
  scanned_pages : Nat
  ocr_engine_used : Option String
  deriving DecidableEq, Repr

/-- `TEXT_THRESHOLD` (invoice_processor.py line 52). -/
def TEXT_THRESHOLD : Nat := 200

/-- Line 89: `use_ocr = params.ocr_force or len(native_text) < TEXT_THRESHOLD`
where `native_text = page.get_text("text").strip()`. -/
def pageUseOcr (params : ProcessingParams) (p : PageInput) : Bool :=
  params.ocr_force || decide ((trimPy p.rawText).length < TEXT_THRESHOLD)

/-- The text `_run_ocr_on_page` returns: the engine output stripped, or
`""` when pytesseract is unavailable. -/
def ocrResultText (ocrAvail : Bool) (p : PageInput) : List Char :=
  if ocrAvail then trimPy p.ocrText else []

/-- The image list `_run_ocr_on_page` returns: the one rendered pixmap,
or `[]` when pytesseract is unavailable. -/
def ocrResultImages (ocrAvail : Bool) (p : PageInput) : List (Nat × Nat) :=
  if ocrAvail then [(p.imgW, p.imgH)] else []

/-- `InvoiceProcessor._extract_text_blocks` (invoice_processor.py 192-207). -/
def extract_text_blocks (p : PageInput) : List BlockOut :=
  p.nativeBlocks.map (fun b => ⟨trimPy b.text, [b.x0, b.y0, b.x1, b.y1], none⟩)

/-- The text appended to `full_text_parts` for one page. -/
def pageText (params : ProcessingParams) (ocrAvail : Bool) (p : PageInput) : List Char :=
  if pageUseOcr params p then ocrResultText ocrAvail p else trimPy p.rawText

/-- The page dict built for page index `n` (0-based; the dict records
`n + 1`). -/
def mkPageOut (params : ProcessingParams) (ocrAvail : Bool) (n : Nat) (p : PageInput) : PageOut :=
  if pageUseOcr params p then
    { number := n + 1, text := ocrResultText ocrAvail p,
      blocks := if params.return_layout
        then [⟨ocrResultText ocrAvail p, [0, 0, 0, 0], some none⟩] else [] }
  else
    { number := n + 1, text := trimPy p.rawText,
      blocks := if params.return_layout then extract_text_blocks p else [] }

/-- The `for page_number in range(pages_count)` loop's `pages_data`. -/
def buildPagesData (params : ProcessingParams) (ocrAvail : Bool) :
    Nat → List PageInput → List PageOut
  | _, [] => []
  | n, p :: ps => mkPageOut params ocrAvail n p :: buildPagesData params ocrAvail (n + 1) ps

/-- The loop's `images_data`: the OCR branch appends one record per
returned image, with the 1-based page number. -/
def buildImages (params : ProcessingParams) (ocrAvail : Bool) :
    Nat → List PageInput → List ImageRec
  | _, [] => []
  | n, p :: ps =>
    (if pageUseOcr params p then
      (ocrResultImages ocrAvail p).enum.map (fun iw => ⟨n + 1, iw.1, iw.2.1, iw.2.2⟩)
    else []) ++ buildImages params ocrAvail (n + 1) ps

/-- The result dict of `process_invoice`.  `entities = none` models the
absence of the `"entities"` key. -/
structure InvoiceResult where
  file_name : String
  hash_sha256 : String
  pages_count : Nat
  pdf_properties : String
  text_full : List Char
  pages : List PageOut
  tables : List Unit
  images : List ImageRec
  inferred_fields : InferredFields
  diagnostics : Diagnostics
  entities : Option (List PIIEntity)
  deriving Repr

/-- `InvoiceProcessor.process_invoice` (invoice_processor.py 54-177) on a
successfully opened document.  `_extract_tables` always returns `[]`, so
`tables` is `[]` whether or not `return_tables` is set. -/
def process_invoice (file_name hash_sha256 pdf_properties : String) (ocrAvail : Bool)
    (pages : List PageInput) (params : ProcessingParams) : InvoiceResult :=
  let fullText := List.intercalate ['\n'] (pages.map (pageText params ocrAvail))
  let red := if params.redact_pii then redact_pii fullText else (fullText, [])
  { file_name := file_name
    hash_sha256 := hash_sha256
    pages_count := pages.length
    pdf_properties := pdf_properties
    text_full := red.1
    pages := buildPagesData params ocrAvail 0 pages
    tables := []
    images := buildImages params ocrAvail 0 pages
    inferred_fields := extract_fields fullText
    diagnostics :=
      { pages_count := pages.length
        scanned_pages := pages.countP (fun p => pageUseOcr params p)
        ocr_engine_used := if ocrAvail then some "tesseract" else none }
    entities := if params.redact_pii then some red.2 else none }

instance : Inhabited PageInput := ⟨⟨[], [], 0, 0, []⟩⟩

instance : Inhabited PageOut := ⟨⟨0, [], []⟩⟩

/-- A document with one long native page and one near-empty (scanned)
page, used to exercise mixed native/OCR processing. -/
def mixedPages : List PageInput :=
  [{ rawText := List.replicate 250 'a', ocrText := "ignored".toList,
     imgW := 10, imgH := 10, nativeBlocks := [] },
   { rawText := "  short native ".toList, ocrText := "  ocr text  ".toList,
     imgW := 8, imgH := 4, nativeBlocks := [] }]

/-- A three-file batch whose second file fails to process. -/
def threeFiles : List UploadFile :=
  [⟨"file1.pdf", "application/pdf", "b1"⟩,
   ⟨"file2.pdf", "application/pdf", "xx"⟩,
   ⟨"file3.pdf", "application/octet-stream", "b3"⟩]

/-- A processor that raises on the corrupted second file only. -/
def brokenSecond : UploadFile → Except String String := fun u =>
  if u.filename = "file2.pdf" then Except.error "cannot open broken stream"
  else Except.ok ("fields of " ++ u.filename)

/-! ## Helper lemmas -/

theorem sub_take (s : List Char) (l : Nat) : containsSub s (s.take l) :=
  ⟨[], s.drop l, by simp⟩

theorem sub_of_sub_drop {s v : List Char} (l : Nat) (h : containsSub (s.drop l) v) :
    containsSub s v := by
  obtain ⟨a, b, hab⟩ := h
  refine ⟨s.take l ++ a, b, ?_⟩
  conv_lhs => rw [← List.take_append_drop l s]
  rw [hab]
  simp

theorem sub_of_sub_tail {c : Char} {s v : List Char} (h : containsSub s v) :
    containsSub (c :: s) v := by
  obtain ⟨a, b, hab⟩ := h
  exact ⟨c :: a, b, by rw [hab]; rfl⟩

theorem mem_findIterG_sub (f : List Char → Option (Nat × List Char))
    (hf : ∀ t l v, f t = some (l, v) → v = t.take l) :
    ∀ (fuel : Nat) (s v : List Char), v ∈ findIterG f fuel s → containsSub s v := by
  intro fuel
  induction fuel with
  | zero => intro s v h; simp [findIterG] at h
  | succ n ih =>
    intro s v h
    cases s with
    | nil => simp [findIterG] at h
    | cons c rest =>
      cases hfc : f (c :: rest) with
      | none =>
        simp only [findIterG, hfc] at h
        exact sub_of_sub_tail (ih rest v h)
      | some lv =>
        obtain ⟨l, w⟩ := lv
        simp only [findIterG, hfc] at h
        by_cases hl : l = 0
        · rw [if_pos hl] at h
          exact sub_of_sub_tail (ih rest v h)
        · rw [if_neg hl] at h
          rcases List.mem_cons.mp h with h | h
          · subst h
            rw [hf _ _ _ hfc]
            exact sub_take _ _
          · exact sub_of_sub_drop l (ih _ _ h)

theorem mem_findMatches_sub (m : List Char → Option Nat) {s v : List Char}
    (h : v ∈ findMatches m s) : containsSub s v := by
  refine mem_findIterG_sub _ ?_ s.length s v h
  intro t l v hv
  cases hm : m t with
  | none => rw [hm] at hv; simp at hv
  | some l0 =>
    rw [hm] at hv
    have hp : (l0, t.take l0) = (l, v) := by simpa using hv
    cases hp
    rfl

theorem buildPagesData_length (params : ProcessingParams) (a : Bool) :
    ∀ (n : Nat) (ps : List PageInput), (buildPagesData params a n ps).length = ps.length := by
  intro n ps
  induction ps generalizing n with
  | nil => rfl
  | cons p ps ih => simp [buildPagesData, ih]

theorem buildPagesData_getD (params : ProcessingParams) (a : Bool) :
    ∀ (ps : List PageInput) (n i : Nat), i < ps.length →
      (buildPagesData params a n ps).getD i default = mkPageOut params a (n + i) (ps.getD i default) := by
  intro ps
  induction ps with
  | nil => intro n i h; simp at h
  | cons p ps ih =>
    intro n i h
    cases i with
    | zero => simp [buildPagesData]
    | succ j =>
      have hj : j < ps.length := by simpa using Nat.lt_of_succ_lt_succ h
      have := ih (n + 1) j hj
      simp only [buildPagesData, List.getD_cons_succ]
      rw [this, show n + 1 + j = n + (j + 1) by omega]

theorem mkPageOut_number (params : ProcessingParams) (a : Bool) (n : Nat) (p : PageInput) :
    (mkPageOut params a n p).number = n + 1 := by
  unfold mkPageOut
  split <;> rfl

theorem mkPageOut_text (params : ProcessingParams) (a : Bool) (n : Nat) (p : PageInput) :
    (mkPageOut params a n p).text = pageText params a p := by
  unfold mkPageOut pageText
  split <;> rfl

theorem ingestLoop_ok (proc : UploadFile → Except String α) :
    ∀ files : List UploadFile, (∀ u ∈ files, allowedContentType u.contentType = true) →
      ingestLoop proc files = Except.ok (files.map (fun u =>
        match proc u with
        | Except.ok r => IngestItem.ok r
        | Except.error e => IngestItem.failed u.filename e)) := by
  intro files h
  induction files with
  | nil => rfl
  | cons u us ih =>
    have hu : allowedContentType u.contentType = true := h u (List.mem_cons_self u us)
    have hus := ih (fun v hv => h v (List.mem_cons_of_mem u hv))
    simp only [ingestLoop, hu, if_pos, hus, List.map_cons]

theorem selectLoop_eq_find (load : String → α) (fn : String) :
    ∀ listing : List String,
      selectLoop load fn listing = ((listing.find? (fun f => templateFileMatches fn f)).map load) := by
  intro listing
  induction listing with
  | nil => rfl
  | cons f fs ih =>
    by_cases hm : templateFileMatches fn f
    · simp [selectLoop, List.find?, hm]
    · simp [selectLoop, List.find?, hm, ih]

theorem pageUseOcr_redact (params : ProcessingParams) (b : Bool) (p : PageInput) :
    pageUseOcr { params with redact_pii := b } p = pageUseOcr params p := rfl

theorem pageText_redact (params : ProcessingParams) (b a : Bool) (p : PageInput) :
    pageText { params with redact_pii := b } a p = pageText params a p := rfl

theorem pageText_redact_fun (params : ProcessingParams) (b a : Bool) :
    pageText { params with redact_pii := b } a = pageText params a :=
  funext fun _ => rfl

theorem mkPageOut_redact (params : ProcessingParams) (b a : Bool) (n : Nat) (p : PageInput) :
    mkPageOut { params with redact_pii := b } a n p = mkPageOut params a n p := rfl

theorem buildPagesData_redact (params : ProcessingParams) (b a : Bool) :
    ∀ (n : Nat) (ps : List PageInput),
      buildPagesData { params with redact_pii := b } a n ps = buildPagesData params a n ps := by
  intro n ps
  induction ps generalizing n with
  | nil => rfl
  | cons p ps ih => simp [buildPagesData, ih, mkPageOut_redact]

theorem buildImages_redact (params : ProcessingParams) (b a : Bool) :
    ∀ (n : Nat) (ps : List PageInput),
      buildImages { params with redact_pii := b } a n ps = buildImages params a n ps := by
  intro n ps
  induction ps generalizing n with
  | nil => rfl
  | cons p ps ih => simp [buildImages, ih, pageUseOcr_redact]

/-! ## Claim theorems -/

/-- C1: for every document, every page and all parameters, the pipeline
uses OCR for a page (its emitted text is the OCR text rather than the
native text) iff the force-OCR flag is set or the trimmed native text is
shorter than the 200-character threshold; the scanned-page counter counts
exactly the pages for which the decision fired. -/
theorem c1_ocr_per_page (fn hs meta : String) (ocrAvail : Bool) (pages : List PageInput)
    (params : ProcessingParams) (i : Nat) (h : i < pages.length) :
    ((process_invoice fn hs meta ocrAvail pages params).pages.getD i default).text
        = (if params.ocr_force = true
              ∨ (trimPy (pages.getD i default).rawText).length < TEXT_THRESHOLD
           then ocrResultText ocrAvail (pages.getD i default)
           else trimPy (pages.getD i default).rawText)
    ∧ (process_invoice fn hs meta ocrAvail pages params).diagnostics.scanned_pages
        = pages.countP (fun p => pageUseOcr params p)
    ∧ (pageUseOcr params (pages.getD i default) = true
        ↔ params.ocr_force = true
            ∨ (trimPy (pages.getD i default).rawText).length < TEXT_THRESHOLD) := by
  refine ⟨?_, rfl, ?_⟩
  · show ((buildPagesData params ocrAvail 0 pages).getD i default).text = _
    rw [buildPagesData_getD params ocrAvail pages 0 i h, mkPageOut_text]
    simp [pageText, pageUseOcr]
  · simp [pageUseOcr]

/-- C1 witness: on the concrete two-page mixed document, page 2's emitted
text is the stripped OCR text and exactly one page is counted scanned. -/
theorem c1_witness :
    ((process_invoice "f.pdf" "h" "m" true mixedPages {}).pages.getD 1 default).text
        = "ocr text".toList
    ∧ (process_invoice "f.pdf" "h" "m" true mixedPages {}).diagnostics.scanned_pages = 1 := by
  have h := c1_ocr_per_page "f.pdf" "h" "m" true mixedPages {} 1 (by decide)
  refine ⟨?_, ?_⟩
  · rw [h.1]; decide
  · rw [h.2.1]; decide

/-- C2 counterexample: redaction is not idempotent.  On
`"GB12ABC456789012"` the phone pattern's match `"456789012"` is replaced
first, so replacing the full IBAN match is a no-op and the residue
`"GB12ABC"` still matches on a second pass. -/
theorem c2_not_idempotent :
    (redact_pii ((redact_pii "GB12ABC456789012".toList).1)).1
      ≠ (redact_pii "GB12ABC456789012".toList).1 := by decide

/-- C2 amended: every reported entity's value occurs verbatim as a
substring of the original (pre-redaction) text; the source's entities
carry no span at all. -/
theorem c2_entity_values_verbatim (text : List Char) (e : PIIEntity)
    (h : e ∈ (redact_pii text).2) : containsSub text e.value := by
  have hm : e ∈ (findMatches emailMatchAt text).map (fun v => PIIEntity.mk "email" v)
      ++ ((findMatches phoneMatchAt text).map (fun v => PIIEntity.mk "phone" v)
      ++ (findMatches ibanMatchAt text).map (fun v => PIIEntity.mk "iban" v)) := by
    simpa [redact_pii] using h
  rcases List.mem_append.mp hm with h1 | h23
  · obtain ⟨v, hv, he⟩ := List.mem_map.mp h1
    rw [← he]
    exact mem_findMatches_sub emailMatchAt hv
  · rcases List.mem_append.mp h23 with h2 | h3
    · obtain ⟨v, hv, he⟩ := List.mem_map.mp h2
      rw [← he]
      exact mem_findMatches_sub phoneMatchAt hv
    · obtain ⟨v, hv, he⟩ := List.mem_map.mp h3
      rw [← he]
      exact mem_findMatches_sub ibanMatchAt hv

/-- C2 amended witness: the email entity reported for `"x a@b"` has its
value verbatim in the original text. -/
theorem c2_entity_witness : containsSub "x a@b".toList "a@b".toList :=
  c2_entity_values_verbatim "x a@b".toList ⟨"email", "a@b".toList⟩ (by decide)

/-- C3 counterexample: a field whose value is the empty string (non-null
but falsy) is counted as unfilled, so the source's confidence is 0 while
the claimed count-of-non-null formula gives 1. -/
theorem c3_counterexample :
    calculate_confidence [("total", PyVal.pystr [])] = 0
    ∧ nonNullRatioSpec [("total", PyVal.pystr [])] = 1
    ∧ calculate_confidence [("total", PyVal.pystr [])]
        ≠ nonNullRatioSpec [("total", PyVal.pystr [])] := by
  have h1 : calculate_confidence [("total", PyVal.pystr [])] = 0 := by
    norm_num [calculate_confidence, truthy, List.filter]
  have h2 : nonNullRatioSpec [("total", PyVal.pystr [])] = 1 := by
    norm_num [nonNullRatioSpec, isNotNone, List.filter]
  exact ⟨h1, h2, by rw [h1, h2]; norm_num⟩

/-- C3 amended: the overall confidence is the ratio of **truthy** fields
to total fields: it lies in `[0,1]`, is `0.0` for an empty mapping, is
`1.0` when the mapping is nonempty and every value is truthy, and is
`0.0` when no value is truthy. -/
theorem c3_confidence_props (extracted : List (String × PyVal)) :
    0 ≤ calculate_confidence extracted
    ∧ calculate_confidence extracted ≤ 1
    ∧ (extracted = [] → calculate_confidence extracted = 0)
    ∧ (extracted ≠ [] → (∀ p ∈ extracted, truthy p.2 = true) →
        calculate_confidence extracted = 1)
    ∧ ((∀ p ∈ extracted, truthy p.2 = false) → calculate_confidence extracted = 0) := by
  by_cases he : extracted = []
  · subst he
    have h0 : calculate_confidence ([] : List (String × PyVal)) = 0 := rfl
    exact ⟨by rw [h0], by rw [h0]; norm_num, fun _ => h0, fun hne _ => absurd rfl hne,
      fun _ => h0⟩
  · have hz : extracted.length ≠ 0 := by simpa using he
    have hpos : (0 : ℚ) < (extracted.length : ℚ) := by
      exact_mod_cast Nat.pos_of_ne_zero hz
    unfold calculate_confidence
    refine ⟨?_, ?_, ?_, ?_, ?_⟩
    · rw [if_neg hz]
      positivity
    · rw [if_neg hz]
      rw [div_le_one hpos]
      exact_mod_cast List.length_filter_le _ _
    · intro h; exact absurd h he
    · intro _ hall
      rw [if_neg hz]
      have hf : extracted.filter (fun p => truthy p.2) = extracted :=
        List.filter_eq_self.mpr hall
      rw [hf, div_self (ne_of_gt hpos)]
    · intro hnone
      rw [if_neg hz]
      have hf : extracted.filter (fun p => truthy p.2) = [] := by
        rw [List.filter_eq_nil_iff]
        intro p hp
        simp [hnone p hp]
      rw [hf]
      simp

/-- C3 amended witness: a singleton mapping with a truthy value scores 1,
and one with no truthy value scores 0. -/
theorem c3_witness :
    calculate_confidence [("a", PyVal.pystr ['x'])] = 1
    ∧ calculate_confidence [("b", PyVal.pystr [])] = 0 :=
  ⟨(c3_confidence_props [("a", PyVal.pystr ['x'])]).2.2.2.1 (by simp) (by decide),
   (c3_confidence_props [("b", PyVal.pystr [])]).2.2.2.2 (by decide)⟩

/-- C4 counterexample: selection depends on the directory-listing order
(so templates are not iterated in a stable ascending order by
identifier), and two templates with the same identifier (`a.yml` and
`a.yaml`) can coexist in one vendor directory. -/
theorem c4_counterexample :
    select_template (fun p => p) (some ["ab.yml", "a.yml"]) "abc"
        ≠ select_template (fun p => p) (some ["a.yml", "ab.yml"]) "abc"
    ∧ templateFileMatches "abc" "a.yml" = true
    ∧ templateFileMatches "abc" "ab.yml" = true
    ∧ splitextRoot "a.yml" = splitextRoot "a.yaml"
    ∧ "a.yml" ≠ "a.yaml"
    ∧ isYamlName "a.yml" = true
    ∧ isYamlName "a.yaml" = true := by decide

/-- C4 amended: for a fixed directory listing selection is a pure
function — the first entry **in listing order** (not sorted) that is a
YAML file whose lowercased base name starts the lowercased filename wins,
with fall-through to the default template. -/
theorem c4_first_match_wins {α : Type} (load : String → α) (listing : List String)
    (file_name : String) :
    select_template load (some listing) file_name
      = (match listing.find? (fun f => templateFileMatches file_name f) with
         | some f => load f
         | none => load "default/default.yml") := by
  show (match selectLoop load file_name listing with
        | some t => t
        | none => load "default/default.yml") = _
  rw [selectLoop_eq_find]
  cases listing.find? (fun f => templateFileMatches file_name f) <;> rfl

/-- C5: when the batch is nonempty and every upload carries an accepted
content type, the response is an array aligned 1:1 with the input list:
each file maps to its processing result, or to a `{file_name, error}`
record when processing its bytes raises, independently of the others. -/
theorem c5_ingest_partial_failure {α : Type} (proc : UploadFile → Except String α)
    (files : List UploadFile) (h1 : files ≠ [])
    (h2 : ∀ u ∈ files, allowedContentType u.contentType = true) :
    ingest proc files = IngestOut.results (files.map (fun u =>
      match proc u with
      | Except.ok r => IngestItem.ok r
      | Except.error e => IngestItem.failed u.filename e))
    ∧ (files.map (fun u =>
      match proc u with
      | Except.ok r => IngestItem.ok r
      | Except.error e => IngestItem.failed u.filename e)).length = files.length := by
  refine ⟨?_, by simp⟩
  unfold ingest
  rw [if_neg (by simpa [List.isEmpty_iff] using h1), ingestLoop_ok proc files h2]

/-- C5 witness: a three-file batch whose second file is corrupt yields a
length-3 array with results for files 1 and 3 and an error record for
file 2. -/
theorem c5_witness :
    ingest brokenSecond threeFiles = IngestOut.results
      [IngestItem.ok "fields of file1.pdf",
       IngestItem.failed "file2.pdf" "cannot open broken stream",
       IngestItem.ok "fields of file3.pdf"] := by
  have h := c5_ingest_partial_failure brokenSecond threeFiles (by decide) (by decide)
  exact h.1.trans (by decide)

/-- C6: repeated tax-line extraction collects all matches in document
order with comma decimal separators converted to dots: `"21% 100,00"`
and `"10% 50,00"` yield the two entries in order, and a matched amount
`"1234,56"` normalises to `"1234.56"`. -/
theorem c6_taxes :
    (extract_fields "IVA 21% 100,00 IVA 10% 50,00".toList).taxes.value
        = FieldValue.vtaxes [("21%".toList, "100.00".toList), ("10%".toList, "50.00".toList)]
    ∧ (extract_fields "base 5% 1234,56".toList).taxes.value
        = FieldValue.vtaxes [("5%".toList, "1234.56".toList)] := by decide

/-- C7: date normalisation tries the fixed format list in order and
accepts the first success: `"03/05/2024"` normalises to `"2024-05-03"`
with confidence 0.9; and whenever the matched date string parses under
none of the formats, the issue-date field is `value=None`,
`confidence=0.0` (evidence keeps the matched string). -/
theorem c7_issue_date :
    (extract_fields "Fecha: 03/05/2024".toList).issue_date
        = ⟨FieldValue.vstr "2024-05-03".toList, 9 / 10, "03/05/2024".toList⟩
    ∧ ∀ (text raw : List Char), searchFirst dateMatchAt text = some raw →
        tryDateFormats raw = none →
        (extract_fields text).issue_date = ⟨FieldValue.vnone, 0, raw⟩ := by
  refine ⟨rfl, ?_⟩
  intro text raw h1 h2
  simp [extract_fields, h1, h2]

/-- C7 witness: `"99/99/99"` matches the date pattern but parses under no
format, so the issue-date field is null with confidence 0. -/
theorem c7_witness :
    (extract_fields "99/99/99".toList).issue_date
      = ⟨FieldValue.vnone, 0, "99/99/99".toList⟩ :=
  c7_issue_date.2 "99/99/99".toList "99/99/99".toList (by decide) (by decide)

/-- C8: the source's `select_template` returns only the loaded template —
on a fall-through input it returns the default template and emits no
warning and no template id, while the spec contract (and the caller
`ProcessingService.process`) expects `(Template, templateId, warnings)`
with a non-empty warning list on fall-through. -/
theorem c8_no_warnings_on_fallthrough :
    select_template (fun p => p) (some ["a.yml"]) "zzz.pdf" = "default/default.yml"
    ∧ (selectTemplateSpec (fun p => p) (some ["a.yml"]) "zzz.pdf").2.2
        = ["vendor-specific lookup fell through to default"] := by decide

/-- C9: for every processed document the pages list has exactly
`pages_count` entries and page numbers are contiguous from 1: the page at
index `i` carries number `i + 1`. -/
theorem c9_pages_invariant (fn hs meta : String) (ocrAvail : Bool) (pages : List PageInput)
    (params : ProcessingParams) :
    (process_invoice fn hs meta ocrAvail pages params).pages.length
        = (process_invoice fn hs meta ocrAvail pages params).pages_count
    ∧ ∀ i, i < pages.length →
        ((process_invoice fn hs meta ocrAvail pages params).pages.getD i default).number
          = i + 1 := by
  constructor
  · exact buildPagesData_length params ocrAvail 0 pages
  · intro i h
    show ((buildPagesData params ocrAvail 0 pages).getD i default).number = i + 1
    rw [buildPagesData_getD params ocrAvail pages 0 i h, mkPageOut_number]
    omega

/-- C9 witness: a concrete two-page document has two page dicts and the
second carries number 2. -/
theorem c9_witness :
    ((process_invoice "f" "h" "m" false [default, default] {}).pages.getD 1 default).number
      = 2 :=
  (c9_pages_invariant "f" "h" "m" false [default, default] {}).2 1 (by decide)

/-- C10: toggling `redact_pii` changes only `text_full` (masked) and the
presence of the `entities` key: the inferred fields and the per-page
texts are computed from the unredacted aggregated text and are identical
in both settings, every other result component is unchanged, and with
`redact_pii` unset the entities key is absent. -/
theorem c10_redaction_frame (fn hs meta : String) (ocrAvail : Bool) (pages : List PageInput)
    (params : ProcessingParams) :
    (process_invoice fn hs meta ocrAvail pages { params with redact_pii := true }).inferred_fields
        = (process_invoice fn hs meta ocrAvail pages { params with redact_pii := false }).inferred_fields
    ∧ (process_invoice fn hs meta ocrAvail pages { params with redact_pii := true }).pages
        = (process_invoice fn hs meta ocrAvail pages { params with redact_pii := false }).pages
    ∧ (process_invoice fn hs meta ocrAvail pages { params with redact_pii := false }).inferred_fields
        = extract_fields (List.intercalate ['\n'] (pages.map (pageText params ocrAvail)))
    ∧ (process_invoice fn hs meta ocrAvail pages { params with redact_pii := false }).text_full
        = List.intercalate ['\n'] (pages.map (pageText params ocrAvail))
    ∧ (process_invoice fn hs meta ocrAvail pages { params with redact_pii := true }).text_full
        = (redact_pii (List.intercalate ['\n'] (pages.map (pageText params ocrAvail)))).1
    ∧ (process_invoice fn hs meta ocrAvail pages { params with redact_pii := false }).entities
        = none
    ∧ (process_invoice fn hs meta ocrAvail pages { params with redact_pii := true }).entities
        = some (redact_pii (List.intercalate ['\n'] (pages.map (pageText params ocrAvail)))).2
    ∧ (process_invoice fn hs meta ocrAvail pages { params with redact_pii := true }).file_name
        = (process_invoice fn hs meta ocrAvail pages { params with redact_pii := false }).file_name
    ∧ (process_invoice fn hs meta ocrAvail pages { params with redact_pii := true }).hash_sha256
        = (process_invoice fn hs meta ocrAvail pages { params with redact_pii := false }).hash_sha256
    ∧ (process_invoice fn hs meta ocrAvail pages { params with redact_pii := true }).pages_count
        = (process_invoice fn hs meta ocrAvail pages { params with redact_pii := false }).pages_count
    ∧ (process_invoice fn hs meta ocrAvail pages { params with redact_pii := true }).pdf_properties
        = (process_invoice fn hs meta ocrAvail pages { params with redact_pii := false }).pdf_properties
    ∧ (process_invoice fn hs meta ocrAvail pages { params with redact_pii := true }).tables
        = (process_invoice fn hs meta ocrAvail pages { params with redact_pii := false }).tables
    ∧ (process_invoice fn hs meta ocrAvail pages { params with redact_pii := true }).images
        = (process_invoice fn hs meta ocrAvail pages { params with redact_pii := false }).images
    ∧ (process_invoice fn hs meta ocrAvail pages { params with redact_pii := true }).diagnostics
        = (process_invoice fn hs meta ocrAvail pages { params with redact_pii := false }).diagnostics := by
  refine ⟨?_, ?_, ?_, ?_, ?_, ?_, ?_, ?_, ?_, ?_, ?_, ?_, ?_, ?_⟩ <;>
    simp [process_invoice, buildPagesData_redact, buildImages_redact, pageText_redact_fun,
      pageUseOcr_redact]

end InvoiceReader
